import Mathlib

/-!
Shallow embedding of the benchmark harness and the WAT scenario synthesizers of
this repository:

* `src/arbitrator/tools/stylus_benchmark/src/scenarios/br.rs`
* `src/arbitrator/tools/stylus_benchmark/src/scenarios/br_table.rs`
* `src/arbitrator/polyglot/src/benchmarks.rs`

The WAT buffer (`wat: &mut Vec<u8>`) is modelled as a list of chunks, one chunk
per `write_all` call; every chunk written by the two synthesizers is a single
ASCII line, modelled as its list of characters.  The byte content of the buffer
is the concatenation (`joinChunks`) of the chunks.
-/

namespace Nitro

/-- One `write_all` call's bytes (all ASCII here), modelled as its character list. -/
abbrev Chunk := List Char

/-- Produces `n` space characters, the shape of every indentation string the synthesizers build. -/
def spaces (n : Nat) : Chunk := List.replicate n ' '

/-- Drop the leading indentation of a written line (cosmetic per the code's formatting). -/
def stripIndent (c : Chunk) : Chunk := c.dropWhile (fun ch => ch == ' ')

/-- The line is a block-open marker: after indentation it starts with `(block`. -/
def isOpen (c : Chunk) : Bool := (stripIndent c).take 6 == "(block".data

/-- The line is a block-close marker: after indentation it is exactly `)`. -/
def isClose (c : Chunk) : Bool := stripIndent c == ")\n".data

/-- The line is an unconditional branch: after indentation it starts with `br `. -/
def isBr (c : Chunk) : Bool := (stripIndent c).take 3 == "br ".data

/-- Number of block-open markers in the buffer. -/
def countOpen (chunks : List Chunk) : Nat := (chunks.filter isOpen).length

/-- Number of block-close markers in the buffer. -/
def countClose (chunks : List Chunk) : Nat := (chunks.filter isClose).length

/-- Number of unconditional-branch instructions in the buffer. -/
def countBr (chunks : List Chunk) : Nat := (chunks.filter isBr).length

/-- The byte content of the buffer. -/
def joinChunks (chunks : List Chunk) : List Char := chunks.flatten

namespace br

/-- The seven `write_all` chunks of one loop iteration of
`br.rs::write_wat_ops`, verbatim. -/
def unitChunks : List Chunk :=
  [ "            (block\n".data,
    "                (block \n".data,
    "                    (block \n".data,
    "                        br 2\n".data,
    "                    )\n".data,
    "                )\n".data,
    "            )\n".data ]

/-- Embeds `br.rs::write_wat_ops`: for each of `number_of_ops_per_loop_iteration` loop
iterations, append the unit's seven chunks to `wat`. -/
def write_wat_ops (wat : List Chunk) (number_of_ops_per_loop_iteration : Nat) : List Chunk :=
  match number_of_ops_per_loop_iteration with
  | 0 => wat
  | Nat.succ n => write_wat_ops (wat ++ unitChunks) n

end br

namespace br_table

/-- Rust `String::pop`: remove the last character. -/
def string_pop (s : List Char) : List Char := s.dropLast

/-- Embeds `br_table.rs::rm_identation`: pop four characters (one indentation step). -/
def rm_identation (s : List Char) : List Char :=
  string_pop (string_pop (string_pop (string_pop s)))

/-- The first loop of one unit of `br_table.rs::write_wat_ops`: starting from the
current `identation`, write `k` chunks `"{identation}(block\n"`, growing the
indentation by four spaces after each.  Returns the final indentation and the
chunks written, in order. -/
def openLoop : List Char → Nat → List Char × List Chunk
  | identation, 0 => (identation, [])
  | identation, Nat.succ k =>
    let res := openLoop (identation ++ "    ".data) k
    (res.1, (identation ++ "(block\n".data) :: res.2)

/-- The `br_table` string built by the second loop of `br_table.rs::write_wat_ops`:
`"br_table"` followed by `" {i}"` for `i` in `0..table_size`. -/
def br_table_string (table_size : Nat) : List Char :=
  (List.range table_size).foldl (fun s i => s ++ (" " ++ toString i).data) "br_table".data

/-- The closing loop of one unit of `br_table.rs::write_wat_ops`: `k` times,
shrink the indentation by one step and write `"{identation})\n"`.  Returns the
final indentation and the chunks written, in order. -/
def closeLoop : List Char → Nat → List Char × List Chunk
  | identation, 0 => (identation, [])
  | identation, Nat.succ k =>
    let id2 := rm_identation identation
    let res := closeLoop id2 k
    (res.1, (id2 ++ ")\n".data) :: res.2)

/-- The chunks of one loop iteration of `br_table.rs::write_wat_ops`: `table_size`
block-opens from the starting 12-space indentation, the selector chunk
`"{identation}i32.const {table_size}\n"`, the dispatch chunk
`"{identation}{br_table}\n"`, then `table_size` block-closes. -/
def unitChunks (table_size : Nat) : List Chunk :=
  let start := "            ".data
  let op := openLoop start table_size
  op.2
    ++ [op.1 ++ "i32.const ".data ++ (toString table_size).data ++ "\n".data]
    ++ [op.1 ++ br_table_string table_size ++ "\n".data]
    ++ (closeLoop op.1 table_size).2

/-- Embeds `br_table.rs::write_wat_ops`: for each of `number_of_ops_per_loop_iteration`
loop iterations, append one unit's chunks to `wat`. -/
def write_wat_ops (wat : List Chunk) (number_of_ops_per_loop_iteration table_size : Nat) :
    List Chunk :=
  match number_of_ops_per_loop_iteration with
  | 0 => wat
  | Nat.succ n => write_wat_ops (wat ++ unitChunks table_size) n table_size

/-- The render of a dispatch instruction with the given target list:
`"br_table"` followed by `" {t}"` for each target in order.  `br_table_string n`
is by definition `dispatchRender (List.range n)`. -/
def dispatchRender (targets : List Nat) : List Char :=
  targets.foldl (fun s i => s ++ (" " ++ toString i).data) "br_table".data

end br_table

namespace benchmarks

/-!
Embedding of `src/arbitrator/polyglot/src/benchmarks.rs`.

The wasmer compiler-builder types (`Singlepass`, `Cranelift`, `LLVM`) are
external library types; only the settings the source explicitly applies are
modelled, as records whose fields start out disabled/unset (`new`) and are set
by the builder functions exactly as the source does.  Durations are modelled as
opaque `Nat` values, the `eyre` error chain as a `String` message, and
`arbutil::format::time` (external to `src/`) as an abstract rendering function
passed in as a parameter.
-/

/-- Optimization vocabulary of the external `wasmer_compiler_cranelift` backend. -/
inductive CraneliftOptLevel
  | None
  | Speed
  | SpeedAndSize
deriving DecidableEq

/-- Optimization vocabulary of the external `wasmer_compiler_llvm` backend. -/
inductive LLVMOptLevel
  | None
  | Less
  | Default
  | Aggressive
deriving DecidableEq

/-- Settings of a `Singlepass` compiler builder touched by the source. -/
structure Singlepass where
  canonicalize_nans : Bool
  verifier : Bool
deriving DecidableEq

/-- Settings of a `Cranelift` compiler builder touched by the source;
`opt_level = none` models "never set by the harness". -/
structure Cranelift where
  canonicalize_nans : Bool
  verifier : Bool
  opt_level : Option CraneliftOptLevel
deriving DecidableEq

/-- Settings of an `LLVM` compiler builder touched by the source. -/
structure LLVM where
  canonicalize_nans : Bool
  verifier : Bool
  opt_level : Option LLVMOptLevel
deriving DecidableEq

/-- The compiler configuration captured by `Store::new`. -/
inductive CompilerConfig
  | singlepass : Singlepass → CompilerConfig
  | cranelift : Cranelift → CompilerConfig
  | llvm : LLVM → CompilerConfig
deriving DecidableEq

/-- A wasmer `Store`, modelled by the compiler configuration it was built from. -/
structure Store where
  compiler : CompilerConfig
deriving DecidableEq

/-- Embeds `single()` from `benchmarks.rs`: `Singlepass::new()`, then
`canonicalize_nans(true)`, `enable_verifier()`, `Store::new(compiler)`.
Singlepass declares no optimization-level knob, so none is modelled. -/
def single : Store := ⟨CompilerConfig.singlepass ⟨true, true⟩⟩

/-- Embeds `cranelift()` from `benchmarks.rs`: `Cranelift::new()`, then
`canonicalize_nans(true)`, `enable_verifier()`,
`opt_level(CraneliftOptLevel::Speed)`, `Store::new(compiler)`. -/
def cranelift : Store := ⟨CompilerConfig.cranelift ⟨true, true, some CraneliftOptLevel.Speed⟩⟩

/-- Embeds `llvm()` from `benchmarks.rs`: `LLVM::new()`, then `canonicalize_nans(true)`,
`enable_verifier()`, `opt_level(LLVMOptLevel::Aggressive)`, `Store::new(compiler)`. -/
def llvm : Store := ⟨CompilerConfig.llvm ⟨true, true, some LLVMOptLevel.Aggressive⟩⟩

/-- Modelled from the spec: the `BackendKind` tagged variant
`{NonOptimizing, MidTierOptimizing, AggressiveOptimizing}` of the spec's data
model (the source has three free-standing builder functions instead). -/
inductive BackendKind
  | NonOptimizing
  | MidTierOptimizing
  | AggressiveOptimizing
deriving DecidableEq

/-- Modelled from the spec: `buildStore` dispatches to the source's per-backend
builders — `single` is the non-optimizing backend, `cranelift` the mid-tier
optimizing one, `llvm` the aggressively optimizing one. -/
def buildStore : BackendKind → Store
  | BackendKind.NonOptimizing => single
  | BackendKind.MidTierOptimizing => cranelift
  | BackendKind.AggressiveOptimizing => llvm

/-- Modelled from the spec: Cranelift's "most aggressive declared optimization
level" — the external backend's dedicated maximum speed-optimization setting,
`Speed` (`SpeedAndSize` trades speed for code size). -/
def CraneliftOptLevel.mostAggressive : CraneliftOptLevel := CraneliftOptLevel.Speed

/-- Modelled from the spec: LLVM's "most aggressive declared optimization
level" — the external backend's maximum setting, `Aggressive`. -/
def LLVMOptLevel.mostAggressive : LLVMOptLevel := LLVMOptLevel.Aggressive

/-- Whether the store's compiler has NaN canonicalization enabled. -/
def Store.nans_enabled : Store → Bool
  | ⟨CompilerConfig.singlepass c⟩ => c.canonicalize_nans
  | ⟨CompilerConfig.cranelift c⟩ => c.canonicalize_nans
  | ⟨CompilerConfig.llvm c⟩ => c.canonicalize_nans

/-- Whether the store's compiler has the bytecode verifier enabled. -/
def Store.verifier_enabled : Store → Bool
  | ⟨CompilerConfig.singlepass c⟩ => c.verifier
  | ⟨CompilerConfig.cranelift c⟩ => c.verifier
  | ⟨CompilerConfig.llvm c⟩ => c.verifier

/-- The Cranelift optimization level the store was built with, if any. -/
def Store.cranelift_level : Store → Option CraneliftOptLevel
  | ⟨CompilerConfig.cranelift c⟩ => c.opt_level
  | _ => Option.none

/-- The LLVM optimization level the store was built with, if any. -/
def Store.llvm_level : Store → Option LLVMOptLevel
  | ⟨CompilerConfig.llvm c⟩ => c.opt_level
  | _ => Option.none

/-- Embeds `native()` from `benchmarks.rs`, minus wall-clock timing: start from
`[0u8; 32]`, apply the external hash `arbutil::crypto::keccak` (passed as the
parameter `keccak`, since its body is not under `src/`) one hundred times
(`for _ in 0..100`), then `assert_ne!(data, [0; 32])`.  `none` models the
panic of a failed assertion; `some data` models a passed assertion, after
which the caller reports the measurement. -/
def native_run (keccak : List Nat → List Nat) : Option (List Nat) :=
  let data := List.replicate 32 0
  let data := (List.range 100).foldl (fun d _ => keccak d) data
  if data = List.replicate 32 0 then Option.none else some data

/-- The all-zero 32-byte buffer `[0u8; 32]`. -/
def zero32 : List Nat := List.replicate 32 0

/-- The body of `benchmark_wasmer` after the measurements themselves: the five
`println!` lines in source order, modelled as the list of printed lines paired
with the `Result` of the function (the `?` operator returns early with the
first measurement error).  `fmtTime` abstracts `arbutil::format::time`;
`native_duration` is `native()`'s result (its assertion is modelled separately
by `native_run`); the four `Except` arguments are the outcomes of
`emulated(llvm())`, `emulated(cranelift())`, `emulated(single())` and
`polyglot()`. -/
def benchmark_wasmer (fmtTime : Nat → String) (native_duration : Nat)
    (llvm_result crane_result single_result poly_result : Except String Nat) :
    List String × Except String Unit :=
  let out0 := ["Native:  " ++ fmtTime native_duration]
  match llvm_result with
  | Except.error e => (out0, Except.error e)
  | Except.ok d1 =>
    let out1 := out0 ++ ["LLVM:    " ++ fmtTime d1]
    match crane_result with
    | Except.error e => (out1, Except.error e)
    | Except.ok d2 =>
      let out2 := out1 ++ ["Crane:   " ++ fmtTime d2]
      match single_result with
      | Except.error e => (out2, Except.error e)
      | Except.ok d3 =>
        let out3 := out2 ++ ["Single:  " ++ fmtTime d3]
        match poly_result with
        | Except.error e => (out3, Except.error e)
        | Except.ok d4 => (out3 ++ ["Poly:    " ++ fmtTime d4], Except.ok ())

/-- A concrete error message, used in closed instances below. -/
def trapMsg : String := "ExecutionTrapError"

/-- A concrete duration rendering, used in closed instances below. -/
def fmtDur (d : Nat) : String := toString d

/-- A concrete stand-in hash, used in closed instances below: constant non-zero. -/
def hash1 (_ : List Nat) : List Nat := List.replicate 32 1

/-- The all-ones buffer that `hash1` produces. -/
def one32 : List Nat := List.replicate 32 1

end benchmarks

/-! ### Helper lemmas about indentation, marker classification and the loops -/

theorem dropWhile_spaces_append (m : Nat) (l : List Char) :
    (spaces m ++ l).dropWhile (fun ch => ch == ' ') = l.dropWhile (fun ch => ch == ' ') := by
  induction m with
  | zero => simp [spaces]
  | succ k ih => simp [spaces, List.replicate_succ, List.dropWhile_cons, ih]

theorem stripIndent_spaces_append (m : Nat) (l : List Char) :
    stripIndent (spaces m ++ l) = stripIndent l :=
  dropWhile_spaces_append m l

theorem stripIndent_cons (c : Char) (l : List Char) (h : (c == ' ') = false) :
    stripIndent (c :: l) = c :: l := by
  simp [stripIndent, List.dropWhile_cons, h]

theorem isOpen_indent_block (m : Nat) : isOpen (spaces m ++ "(block\n".data) = true := by
  unfold isOpen
  rw [stripIndent_spaces_append]
  decide

theorem isClose_indent_block (m : Nat) : isClose (spaces m ++ "(block\n".data) = false := by
  unfold isClose
  rw [stripIndent_spaces_append]
  decide

theorem isClose_indent_close (m : Nat) : isClose (spaces m ++ ")\n".data) = true := by
  unfold isClose
  rw [stripIndent_spaces_append]
  decide

theorem isOpen_indent_close (m : Nat) : isOpen (spaces m ++ ")\n".data) = false := by
  unfold isOpen
  rw [stripIndent_spaces_append]
  decide

theorem isOpen_head_ne (m : Nat) (c : Char) (l : List Char)
    (hsp : (c == ' ') = false) (hpar : (c == '(') = false) :
    isOpen (spaces m ++ (c :: l)) = false := by
  unfold isOpen
  rw [stripIndent_spaces_append, stripIndent_cons c l hsp, beq_eq_false_iff_ne]
  intro h
  have hb : "(block".data = '(' :: "block".data := rfl
  rw [List.take_succ_cons, hb] at h
  injection h with h1 h2
  exact (beq_eq_false_iff_ne.mp hpar) h1

theorem isClose_head_ne (m : Nat) (c : Char) (l : List Char)
    (hsp : (c == ' ') = false) (hpar : (c == ')') = false) :
    isClose (spaces m ++ (c :: l)) = false := by
  unfold isClose
  rw [stripIndent_spaces_append, stripIndent_cons c l hsp, beq_eq_false_iff_ne]
  intro h
  have hb : ")\n".data = ')' :: "\n".data := rfl
  rw [hb] at h
  injection h with h1 h2
  exact (beq_eq_false_iff_ne.mp hpar) h1

theorem spaces_append_spaces (m n : Nat) : spaces m ++ spaces n = spaces (m + n) := by
  show List.replicate m ' ' ++ List.replicate n ' ' = List.replicate (m + n) ' '
  exact (List.replicate_add m n ' ').symm

theorem string_pop_spaces (n : Nat) : br_table.string_pop (spaces (n + 1)) = spaces n := by
  simp [br_table.string_pop, spaces, List.replicate_succ', List.dropLast_concat]

theorem rm_identation_spaces (n : Nat) : br_table.rm_identation (spaces (n + 4)) = spaces n := by
  have h4 : br_table.string_pop (spaces (n + 4)) = spaces (n + 3) := string_pop_spaces (n + 3)
  have h3 : br_table.string_pop (spaces (n + 3)) = spaces (n + 2) := string_pop_spaces (n + 2)
  have h2 : br_table.string_pop (spaces (n + 2)) = spaces (n + 1) := string_pop_spaces (n + 1)
  have h1 : br_table.string_pop (spaces (n + 1)) = spaces n := string_pop_spaces n
  unfold br_table.rm_identation
  rw [h4, h3, h2, h1]

theorem foldl_append_chunks (g : Nat → List Char) (l : List Nat) (a : List Char) :
    l.foldl (fun s i => s ++ g i) a = a ++ (l.map g).flatten := by
  induction l generalizing a with
  | nil => simp
  | cons x xs ih => simp [List.foldl_cons, ih, List.append_assoc]

theorem br_table_string_cons (ts : Nat) :
    br_table.br_table_string ts
      = 'b' :: ("r_table".data
          ++ ((List.range ts).map (fun i => (" " ++ toString i).data)).flatten) := by
  unfold br_table.br_table_string
  rw [foldl_append_chunks]
  rfl

theorem isOpen_selector (m : Nat) (t : List Char) :
    isOpen (spaces m ++ ("i32.const ".data ++ t)) = false := by
  have h : "i32.const ".data ++ t = 'i' :: ("32.const ".data ++ t) := rfl
  rw [h]
  exact isOpen_head_ne m 'i' _ (by decide) (by decide)

theorem isClose_selector (m : Nat) (t : List Char) :
    isClose (spaces m ++ ("i32.const ".data ++ t)) = false := by
  have h : "i32.const ".data ++ t = 'i' :: ("32.const ".data ++ t) := rfl
  rw [h]
  exact isClose_head_ne m 'i' _ (by decide) (by decide)

theorem isOpen_dispatch (m ts : Nat) (t : List Char) :
    isOpen (spaces m ++ (br_table.br_table_string ts ++ t)) = false := by
  rw [br_table_string_cons, List.cons_append]
  exact isOpen_head_ne m 'b' _ (by decide) (by decide)

theorem isClose_dispatch (m ts : Nat) (t : List Char) :
    isClose (spaces m ++ (br_table.br_table_string ts ++ t)) = false := by
  rw [br_table_string_cons, List.cons_append]
  exact isClose_head_ne m 'b' _ (by decide) (by decide)

theorem openLoop_spaces (k : Nat) : ∀ m : Nat,
    br_table.openLoop (spaces m) k
      = (spaces (m + 4 * k),
         (List.range k).map (fun i => spaces (m + 4 * i) ++ "(block\n".data)) := by
  induction k with
  | zero => intro m; simp [br_table.openLoop]
  | succ k ih =>
    intro m
    have h4 : spaces m ++ "    ".data = spaces (m + 4) := by
      have hs : "    ".data = spaces 4 := rfl
      rw [hs, spaces_append_spaces]
    have step : br_table.openLoop (spaces m) (k + 1)
        = ((br_table.openLoop (spaces (m + 4)) k).1,
           (spaces m ++ "(block\n".data) :: (br_table.openLoop (spaces (m + 4)) k).2) := by
      simp [br_table.openLoop, h4]
    rw [step, ih (m + 4), List.range_succ_eq_map]
    simp only [Prod.mk.injEq, List.map_cons, List.map_map]
    constructor
    · have harg : m + 4 + 4 * k = m + 4 * (k + 1) := by omega
      rw [harg]
    · have hh : m + 4 * 0 = m := by omega
      rw [hh]
      congr 1
      apply List.map_congr_left
      intro i _
      have harg : m + 4 + 4 * i = m + 4 * Nat.succ i := by omega
      simp [Function.comp, harg]

theorem closeLoop_spaces (k : Nat) : ∀ m : Nat,
    br_table.closeLoop (spaces (m + 4 * k)) k
      = (spaces m, (List.range k).map (fun i => spaces (m + 4 * (k - 1 - i)) ++ ")\n".data)) := by
  induction k with
  | zero => intro m; simp [br_table.closeLoop]
  | succ k ih =>
    intro m
    have hid : br_table.rm_identation (spaces (m + 4 * (k + 1))) = spaces (m + 4 * k) := by
      have h := rm_identation_spaces (m + 4 * k)
      have harg : m + 4 * k + 4 = m + 4 * (k + 1) := by omega
      rw [harg] at h
      exact h
    have step : br_table.closeLoop (spaces (m + 4 * (k + 1))) (k + 1)
        = ((br_table.closeLoop (spaces (m + 4 * k)) k).1,
           (spaces (m + 4 * k) ++ ")\n".data) :: (br_table.closeLoop (spaces (m + 4 * k)) k).2) := by
      simp [br_table.closeLoop, hid]
    rw [step, ih m, List.range_succ_eq_map]
    simp only [Prod.mk.injEq, List.map_cons, List.map_map, true_and]
    have hh : m + 4 * (k + 1 - 1 - 0) = m + 4 * k := by omega
    rw [hh]
    congr 1
    apply List.map_congr_left
    intro i _
    have harg : m + 4 * (k - 1 - i) = m + 4 * (k + 1 - 1 - Nat.succ i) := by omega
    simp [Function.comp, harg]

theorem unitChunks_eq (ts : Nat) :
    br_table.unitChunks ts
      = (List.range ts).map (fun i => spaces (12 + 4 * i) ++ "(block\n".data)
        ++ [spaces (12 + 4 * ts) ++ ("i32.const ".data ++ ((toString ts).data ++ "\n".data))]
        ++ [spaces (12 + 4 * ts) ++ (br_table.br_table_string ts ++ "\n".data)]
        ++ (List.range ts).map (fun i => spaces (12 + 4 * (ts - 1 - i)) ++ ")\n".data) := by
  have h0 : br_table.unitChunks ts
      = (br_table.openLoop (spaces 12) ts).2
        ++ [(br_table.openLoop (spaces 12) ts).1
              ++ "i32.const ".data ++ (toString ts).data ++ "\n".data]
        ++ [(br_table.openLoop (spaces 12) ts).1 ++ br_table.br_table_string ts ++ "\n".data]
        ++ (br_table.closeLoop (br_table.openLoop (spaces 12) ts).1 ts).2 := rfl
  rw [h0, openLoop_spaces ts 12]
  simp [closeLoop_spaces ts 12, List.append_assoc]

theorem br_write_eq (wat : List Chunk) (n : Nat) :
    br.write_wat_ops wat n = wat ++ (List.replicate n br.unitChunks).flatten := by
  induction n generalizing wat with
  | zero => simp [br.write_wat_ops]
  | succ k ih => simp [br.write_wat_ops, ih, List.replicate_succ, List.append_assoc]

theorem br_table_write_eq (wat : List Chunk) (n ts : Nat) :
    br_table.write_wat_ops wat n ts
      = wat ++ (List.replicate n (br_table.unitChunks ts)).flatten := by
  induction n generalizing wat with
  | zero => simp [br_table.write_wat_ops]
  | succ k ih => simp [br_table.write_wat_ops, ih, List.replicate_succ, List.append_assoc]

theorem countOpen_append (a b : List Chunk) :
    countOpen (a ++ b) = countOpen a + countOpen b := by
  simp [countOpen, List.filter_append]

theorem countClose_append (a b : List Chunk) :
    countClose (a ++ b) = countClose a + countClose b := by
  simp [countClose, List.filter_append]

theorem countBr_append (a b : List Chunk) :
    countBr (a ++ b) = countBr a + countBr b := by
  simp [countBr, List.filter_append]

theorem countOpen_flatten_replicate (n : Nat) (u : List Chunk) :
    countOpen ((List.replicate n u).flatten) = n * countOpen u := by
  induction n with
  | zero => simp [countOpen]
  | succ k ih => simp [List.replicate_succ, countOpen_append, ih, Nat.succ_mul]; omega

theorem countClose_flatten_replicate (n : Nat) (u : List Chunk) :
    countClose ((List.replicate n u).flatten) = n * countClose u := by
  induction n with
  | zero => simp [countClose]
  | succ k ih => simp [List.replicate_succ, countClose_append, ih, Nat.succ_mul]; omega

theorem countBr_flatten_replicate (n : Nat) (u : List Chunk) :
    countBr ((List.replicate n u).flatten) = n * countBr u := by
  induction n with
  | zero => simp [countBr]
  | succ k ih => simp [List.replicate_succ, countBr_append, ih, Nat.succ_mul]; omega

theorem not_isOpen_indent_close (m : Nat) : ¬ isOpen (spaces m ++ ")\n".data) = true := by
  rw [isOpen_indent_close]
  decide

theorem not_isClose_indent_block (m : Nat) : ¬ isClose (spaces m ++ "(block\n".data) = true := by
  rw [isClose_indent_block]
  decide

theorem countOpen_singleton_false (c : Chunk) (h : isOpen c = false) : countOpen [c] = 0 := by
  simp [countOpen, List.filter_cons, h]

theorem countClose_singleton_false (c : Chunk) (h : isClose c = false) : countClose [c] = 0 := by
  simp [countClose, List.filter_cons, h]

theorem countOpen_unit_br_table (ts : Nat) : countOpen (br_table.unitChunks ts) = ts := by
  rw [unitChunks_eq, countOpen_append, countOpen_append, countOpen_append]
  have h1 : countOpen ((List.range ts).map (fun i => spaces (12 + 4 * i) ++ "(block\n".data))
      = ts := by
    unfold countOpen
    rw [List.filter_eq_self.mpr]
    · simp
    · intro c hc
      rcases List.mem_map.mp hc with ⟨i, _, rfl⟩
      exact isOpen_indent_block _
  have h2 : countOpen [spaces (12 + 4 * ts)
      ++ ("i32.const ".data ++ ((toString ts).data ++ "\n".data))] = 0 :=
    countOpen_singleton_false _ (isOpen_selector _ _)
  have h3 : countOpen [spaces (12 + 4 * ts) ++ (br_table.br_table_string ts ++ "\n".data)]
      = 0 :=
    countOpen_singleton_false _ (isOpen_dispatch _ _ _)
  have h4 : countOpen ((List.range ts).map (fun i => spaces (12 + 4 * (ts - 1 - i)) ++ ")\n".data))
      = 0 := by
    unfold countOpen
    rw [List.filter_eq_nil_iff.mpr]
    · rfl
    · intro c hc
      rcases List.mem_map.mp hc with ⟨i, _, rfl⟩
      exact not_isOpen_indent_close _
  rw [h1, h2, h3, h4]
  omega

theorem countClose_unit_br_table (ts : Nat) : countClose (br_table.unitChunks ts) = ts := by
  rw [unitChunks_eq, countClose_append, countClose_append, countClose_append]
  have h1 : countClose ((List.range ts).map (fun i => spaces (12 + 4 * i) ++ "(block\n".data))
      = 0 := by
    unfold countClose
    rw [List.filter_eq_nil_iff.mpr]
    · rfl
    · intro c hc
      rcases List.mem_map.mp hc with ⟨i, _, rfl⟩
      exact not_isClose_indent_block _
  have h2 : countClose [spaces (12 + 4 * ts)
      ++ ("i32.const ".data ++ ((toString ts).data ++ "\n".data))] = 0 :=
    countClose_singleton_false _ (isClose_selector _ _)
  have h3 : countClose [spaces (12 + 4 * ts) ++ (br_table.br_table_string ts ++ "\n".data)]
      = 0 :=
    countClose_singleton_false _ (isClose_dispatch _ _ _)
  have h4 : countClose ((List.range ts).map (fun i => spaces (12 + 4 * (ts - 1 - i)) ++ ")\n".data))
      = ts := by
    unfold countClose
    rw [List.filter_eq_self.mpr]
    · simp
    · intro c hc
      rcases List.mem_map.mp hc with ⟨i, _, rfl⟩
      exact isClose_indent_close _
  rw [h1, h2, h3, h4]
  omega

theorem countOpen_unit_br : countOpen br.unitChunks = 3 := by decide

theorem countClose_unit_br : countClose br.unitChunks = 3 := by decide

theorem countBr_unit_br : countBr br.unitChunks = 1 := by decide

theorem foldl_const_iterate {α : Type} (f : α → α) (n : Nat) (a : α) :
    (List.range n).foldl (fun d _ => f d) a = f^[n] a := by
  induction n with
  | zero => simp
  | succ k ih =>
    rw [List.range_succ, List.foldl_append, ih, List.foldl_cons, List.foldl_nil,
      Function.iterate_succ_apply']

/-! ### Claim theorems -/

/-- C3: for every `opsPerIteration ≥ 0`, the nested-branch synthesizer appends
exactly `opsPerIteration` repetitions of one fixed operation unit — three
block-open markers, one unconditional branch whose instruction is `br 2` (the
outermost of the three blocks), and three block-close markers in matching
order — so the fragment contains `3 × opsPerIteration` open markers,
`3 × opsPerIteration` close markers and `opsPerIteration` branch instructions. -/
theorem br_unit_structure (opsPerIteration : Nat) :
    (∀ wat, br.write_wat_ops wat opsPerIteration
        = wat ++ (List.replicate opsPerIteration br.unitChunks).flatten)
    ∧ (∃ o1 o2 o3 b c1 c2 c3, br.unitChunks = [o1, o2, o3, b, c1, c2, c3]
        ∧ isOpen o1 = true ∧ isOpen o2 = true ∧ isOpen o3 = true
        ∧ stripIndent b = "br 2\n".data ∧ isBr b = true
        ∧ isClose c1 = true ∧ isClose c2 = true ∧ isClose c3 = true)
    ∧ countOpen (br.write_wat_ops [] opsPerIteration) = 3 * opsPerIteration
    ∧ countClose (br.write_wat_ops [] opsPerIteration) = 3 * opsPerIteration
    ∧ countBr (br.write_wat_ops [] opsPerIteration) = opsPerIteration := by
  refine ⟨fun wat => br_write_eq wat _,
    ⟨_, _, _, _, _, _, _, rfl, by decide, by decide, by decide, by decide, by decide,
      by decide, by decide, by decide⟩, ?_, ?_, ?_⟩
  · rw [br_write_eq, List.nil_append, countOpen_flatten_replicate, countOpen_unit_br,
      Nat.mul_comm]
  · rw [br_write_eq, List.nil_append, countClose_flatten_replicate, countClose_unit_br,
      Nat.mul_comm]
  · rw [br_write_eq, List.nil_append, countBr_flatten_replicate, countBr_unit_br,
      Nat.mul_one]

/-- C2: for every `tableSize ≥ 1` and every `opsPerIteration ≥ 0`, the
branch-table synthesizer appends `opsPerIteration` copies of one unit, and each
unit is exactly `tableSize` block-open markers, then one selector constant
`i32.const tableSize`, then one `br_table` dispatch whose target list is the
`tableSize` indices `0 .. tableSize-1` in ascending order, then `tableSize`
block-close markers in matching (dedenting) order. -/
theorem br_table_unit_structure (tableSize opsPerIteration : Nat) (_hts : 1 ≤ tableSize) :
    (∀ wat, br_table.write_wat_ops wat opsPerIteration tableSize
        = wat ++ (List.replicate opsPerIteration (br_table.unitChunks tableSize)).flatten)
    ∧ (∃ opens sel disp closes,
        br_table.unitChunks tableSize = opens ++ [sel] ++ [disp] ++ closes
        ∧ opens = (List.range tableSize).map (fun i => spaces (12 + 4 * i) ++ "(block\n".data)
        ∧ opens.length = tableSize
        ∧ (∀ c ∈ opens, isOpen c = true)
        ∧ sel = spaces (12 + 4 * tableSize)
            ++ ("i32.const ".data ++ ((toString tableSize).data ++ "\n".data))
        ∧ disp = spaces (12 + 4 * tableSize)
            ++ (br_table.dispatchRender (List.range tableSize) ++ "\n".data)
        ∧ (List.range tableSize).length = tableSize
        ∧ List.Pairwise (fun a b => a < b) (List.range tableSize)
        ∧ closes = (List.range tableSize).map
            (fun i => spaces (12 + 4 * (tableSize - 1 - i)) ++ ")\n".data)
        ∧ closes.length = tableSize
        ∧ (∀ c ∈ closes, isClose c = true)) := by
  refine ⟨fun wat => br_table_write_eq wat _ _,
    ⟨_, _, _, _, unitChunks_eq tableSize, rfl, ?_, ?_, rfl, rfl, ?_, ?_, rfl, ?_, ?_⟩⟩
  · simp
  · intro c hc
    rcases List.mem_map.mp hc with ⟨i, _, rfl⟩
    exact isOpen_indent_block _
  · exact List.length_range tableSize
  · exact List.pairwise_lt_range tableSize
  · simp
  · intro c hc
    rcases List.mem_map.mp hc with ⟨i, _, rfl⟩
    exact isClose_indent_close _

/-- C6: for both synthesizers, `opsPerIteration = 0` appends nothing: the call
is a no-op returning the buffer unchanged, not an error (the embedded functions
are total). -/
theorem write_wat_ops_zero_ops :
    (∀ wat, br.write_wat_ops wat 0 = wat)
    ∧ (∀ wat table_size, br_table.write_wat_ops wat 0 table_size = wat) :=
  ⟨fun _ => rfl, fun _ _ => rfl⟩

/-- C8: for both synthesizers, at every operation-unit boundary (the buffer
state after any number `n` of completed units, hence at the end of every call)
the appended text has as many block-open markers as block-close markers. -/
theorem wat_nesting_balanced :
    (∀ n, countOpen (br.write_wat_ops [] n) = countClose (br.write_wat_ops [] n))
    ∧ (∀ n table_size,
        countOpen (br_table.write_wat_ops [] n table_size)
          = countClose (br_table.write_wat_ops [] n table_size)) := by
  constructor
  · intro n
    rw [br_write_eq, List.nil_append, countOpen_flatten_replicate,
      countClose_flatten_replicate, countOpen_unit_br, countClose_unit_br]
  · intro n ts
    rw [br_table_write_eq, List.nil_append, countOpen_flatten_replicate,
      countClose_flatten_replicate, countOpen_unit_br_table, countClose_unit_br_table]

/-- C9: both synthesizers are append-only — the prior buffer contents survive
unchanged as a prefix (at chunk level and at byte level), and the appended
suffix equals the fragment produced from an empty buffer, so it depends only on
the numeric parameters. -/
theorem write_wat_ops_append_only :
    (∀ wat n, br.write_wat_ops wat n = wat ++ br.write_wat_ops [] n
        ∧ joinChunks (br.write_wat_ops wat n)
            = joinChunks wat ++ joinChunks (br.write_wat_ops [] n))
    ∧ (∀ wat n table_size,
        br_table.write_wat_ops wat n table_size
            = wat ++ br_table.write_wat_ops [] n table_size
        ∧ joinChunks (br_table.write_wat_ops wat n table_size)
            = joinChunks wat ++ joinChunks (br_table.write_wat_ops [] n table_size)) := by
  constructor
  · intro wat n
    have hmain : br.write_wat_ops wat n = wat ++ br.write_wat_ops [] n := by
      rw [br_write_eq wat n, br_write_eq ([]) n, List.nil_append]
    exact ⟨hmain, by rw [hmain]; simp [joinChunks]⟩
  · intro wat n ts
    have hmain : br_table.write_wat_ops wat n ts = wat ++ br_table.write_wat_ops [] n ts := by
      rw [br_table_write_eq wat n ts, br_table_write_eq ([]) n ts, List.nil_append]
    exact ⟨hmain, by rw [hmain]; simp [joinChunks]⟩

/-- C10: with `table_size = 0` and at least one op, the branch-table synthesizer
neither fails nor emits an empty fragment: each unit is the selector line
`i32.const 0` followed by a bare `br_table` with an empty target list, and the
fragment contains no block-open and no block-close markers. -/
theorem br_table_zero_table_size (opsPerIteration : Nat) (hops : 1 ≤ opsPerIteration) :
    br_table.unitChunks 0
      = [spaces 12 ++ "i32.const 0\n".data, spaces 12 ++ "br_table\n".data]
    ∧ (∀ wat, br_table.write_wat_ops wat opsPerIteration 0
        = wat ++ (List.replicate opsPerIteration
            [spaces 12 ++ "i32.const 0\n".data, spaces 12 ++ "br_table\n".data]).flatten)
    ∧ br_table.write_wat_ops [] opsPerIteration 0 ≠ []
    ∧ countOpen (br_table.write_wat_ops [] opsPerIteration 0) = 0
    ∧ countClose (br_table.write_wat_ops [] opsPerIteration 0) = 0 := by
  have hu : br_table.unitChunks 0
      = [spaces 12 ++ "i32.const 0\n".data, spaces 12 ++ "br_table\n".data] := by decide
  refine ⟨hu, fun wat => by rw [br_table_write_eq, hu], ?_, ?_, ?_⟩
  · obtain ⟨k, rfl⟩ : ∃ k, opsPerIteration = k + 1 := ⟨opsPerIteration - 1, by omega⟩
    rw [br_table_write_eq, hu]
    simp [List.replicate_succ]
  · rw [br_table_write_eq, List.nil_append, countOpen_flatten_replicate,
      countOpen_unit_br_table]
    simp
  · rw [br_table_write_eq, List.nil_append, countClose_flatten_replicate,
      countClose_unit_br_table]
    simp

/-- Witness for claim C2, at `tableSize = 2`, `opsPerIteration = 1`. -/
theorem br_table_unit_structure_witness :
    1 ≤ 2
    ∧ ((∀ wat, br_table.write_wat_ops wat 1 2
        = wat ++ (List.replicate 1 (br_table.unitChunks 2)).flatten)
    ∧ (∃ opens sel disp closes,
        br_table.unitChunks 2 = opens ++ [sel] ++ [disp] ++ closes
        ∧ opens = (List.range 2).map (fun i => spaces (12 + 4 * i) ++ "(block\n".data)
        ∧ opens.length = 2
        ∧ (∀ c ∈ opens, isOpen c = true)
        ∧ sel = spaces (12 + 4 * 2)
            ++ ("i32.const ".data ++ ((toString 2).data ++ "\n".data))
        ∧ disp = spaces (12 + 4 * 2)
            ++ (br_table.dispatchRender (List.range 2) ++ "\n".data)
        ∧ (List.range 2).length = 2
        ∧ List.Pairwise (fun a b => a < b) (List.range 2)
        ∧ closes = (List.range 2).map
            (fun i => spaces (12 + 4 * (2 - 1 - i)) ++ ")\n".data)
        ∧ closes.length = 2
        ∧ (∀ c ∈ closes, isClose c = true))) :=
  ⟨by decide, br_table_unit_structure 2 1 (by decide)⟩

/-- Witness for claim C10, at `opsPerIteration = 1`. -/
theorem br_table_zero_table_size_witness :
    1 ≤ 1
    ∧ (br_table.unitChunks 0
      = [spaces 12 ++ "i32.const 0\n".data, spaces 12 ++ "br_table\n".data]
    ∧ (∀ wat, br_table.write_wat_ops wat 1 0
        = wat ++ (List.replicate 1
            [spaces 12 ++ "i32.const 0\n".data, spaces 12 ++ "br_table\n".data]).flatten)
    ∧ br_table.write_wat_ops [] 1 0 ≠ []
    ∧ countOpen (br_table.write_wat_ops [] 1 0) = 0
    ∧ countClose (br_table.write_wat_ops [] 1 0) = 0) :=
  ⟨by decide, br_table_zero_table_size 1 (by decide)⟩

/-- Claim C5: for every BackendKind, `buildStore` enables NaN canonicalization
and the bytecode verifier; the two optimizing backends get their (spec-modelled)
most aggressive declared optimization level, the non-optimizing backend gets
none. -/
theorem buildStore_config :
    (∀ kind, (benchmarks.buildStore kind).nans_enabled = true
        ∧ (benchmarks.buildStore kind).verifier_enabled = true)
    ∧ (benchmarks.buildStore benchmarks.BackendKind.MidTierOptimizing).cranelift_level
        = some benchmarks.CraneliftOptLevel.mostAggressive
    ∧ (benchmarks.buildStore benchmarks.BackendKind.AggressiveOptimizing).llvm_level
        = some benchmarks.LLVMOptLevel.mostAggressive
    ∧ (benchmarks.buildStore benchmarks.BackendKind.NonOptimizing).cranelift_level
        = Option.none
    ∧ (benchmarks.buildStore benchmarks.BackendKind.NonOptimizing).llvm_level
        = Option.none := by
  refine ⟨?_, rfl, rfl, rfl, rfl⟩
  intro kind
  cases kind <;> exact ⟨rfl, rfl⟩

/-- Claim C4: on the all-success path the report is the fixed-order sequence of
lines — Native baseline first, then LLVM, Cranelift and Singlepass in measured
order, then the Polyglot target-environment result last — each line being the
label, a colon, alignment padding of at least two spaces, and the rendered
duration; entries are never reordered or aggregated. -/
theorem report_fixed_order (fmtTime : Nat → String) (nd d1 d2 d3 d4 : Nat) :
    benchmarks.benchmark_wasmer fmtTime nd
        (Except.ok d1) (Except.ok d2) (Except.ok d3) (Except.ok d4)
      = (["Native" ++ ":" ++ String.mk (spaces 2) ++ fmtTime nd,
          "LLVM" ++ ":" ++ String.mk (spaces 4) ++ fmtTime d1,
          "Crane" ++ ":" ++ String.mk (spaces 3) ++ fmtTime d2,
          "Single" ++ ":" ++ String.mk (spaces 2) ++ fmtTime d3,
          "Poly" ++ ":" ++ String.mk (spaces 4) ++ fmtTime d4],
         Except.ok ()) := by
  have hN : "Native" ++ ":" ++ String.mk (spaces 2) = "Native:  " := by decide
  have hL : "LLVM" ++ ":" ++ String.mk (spaces 4) = "LLVM:    " := by decide
  have hC : "Crane" ++ ":" ++ String.mk (spaces 3) = "Crane:   " := by decide
  have hS : "Single" ++ ":" ++ String.mk (spaces 2) = "Single:  " := by decide
  have hP : "Poly" ++ ":" ++ String.mk (spaces 4) = "Poly:    " := by decide
  rw [hN, hL, hC, hS, hP]
  rfl

/-- Counterexample to claim C1 as stated: when the LLVM measurement fails and
the Cranelift, Singlepass and Polyglot measurements would all succeed, the run
reports only the Native line — the later, unrelated measurements are not
reported, so the failure does propagate past the failing measurement. -/
theorem trap_halts_subsequent_measurements :
    benchmarks.benchmark_wasmer benchmarks.fmtDur 7
        (Except.error benchmarks.trapMsg) (Except.ok 5) (Except.ok 6) (Except.ok 8)
      = (["Native:  7"], Except.error benchmarks.trapMsg)
    ∧ (benchmarks.benchmark_wasmer benchmarks.fmtDur 7
        (Except.error benchmarks.trapMsg) (Except.ok 5) (Except.ok 6) (Except.ok 8)).1.length
        = 1 :=
  ⟨rfl, rfl⟩

/-- Claim C1 (amended): a failure during one measurement aborts that measurement
and the remainder of the run — measurements completed before it remain reported
in order, the failing measurement's error becomes the run's result, and the
subsequent measurements are not reported. -/
theorem measurement_failure_aborts_run (fmtTime : Nat → String) (nd : Nat) (e : String)
    (r2 r3 r4 : Except String Nat) (d1 d2 d3 : Nat) :
    benchmarks.benchmark_wasmer fmtTime nd (Except.error e) r2 r3 r4
      = (["Native:  " ++ fmtTime nd], Except.error e)
    ∧ benchmarks.benchmark_wasmer fmtTime nd (Except.ok d1) (Except.error e) r3 r4
      = (["Native:  " ++ fmtTime nd, "LLVM:    " ++ fmtTime d1], Except.error e)
    ∧ benchmarks.benchmark_wasmer fmtTime nd (Except.ok d1) (Except.ok d2) (Except.error e) r4
      = (["Native:  " ++ fmtTime nd, "LLVM:    " ++ fmtTime d1,
          "Crane:   " ++ fmtTime d2], Except.error e)
    ∧ benchmarks.benchmark_wasmer fmtTime nd (Except.ok d1) (Except.ok d2) (Except.ok d3)
        (Except.error e)
      = (["Native:  " ++ fmtTime nd, "LLVM:    " ++ fmtTime d1, "Crane:   " ++ fmtTime d2,
          "Single:  " ++ fmtTime d3], Except.error e) :=
  ⟨rfl, rfl, rfl, rfl⟩

/-- Claim C7: the native baseline iterates the hash 100 times from the all-zero
32-byte buffer; the run is reported exactly when the final buffer differs from
the all-zero initial state, and a reported buffer is that 100-fold iterate and
is never the unchanged all-zero state (the check precedes reporting). -/
theorem native_guard (keccak : List Nat → List Nat) :
    (∀ d, benchmarks.native_run keccak = some d
        → d = keccak^[100] benchmarks.zero32 ∧ d ≠ benchmarks.zero32)
    ∧ (benchmarks.native_run keccak = Option.none
        ↔ keccak^[100] benchmarks.zero32 = benchmarks.zero32) := by
  have hrun : benchmarks.native_run keccak
      = if keccak^[100] benchmarks.zero32 = benchmarks.zero32 then Option.none
        else some (keccak^[100] benchmarks.zero32) := by
    show (if (List.range 100).foldl (fun d _ => keccak d) (List.replicate 32 0)
          = List.replicate 32 0 then Option.none
          else some ((List.range 100).foldl (fun d _ => keccak d) (List.replicate 32 0))) = _
    rw [foldl_const_iterate keccak 100 (List.replicate 32 0)]
    rfl
  by_cases hz : keccak^[100] benchmarks.zero32 = benchmarks.zero32
  · constructor
    · intro d hd
      rw [hrun, if_pos hz] at hd
      exact absurd hd (by simp)
    · rw [hrun, if_pos hz]
      simp [hz]
  · constructor
    · intro d hd
      rw [hrun, if_neg hz] at hd
      have hd2 : keccak^[100] benchmarks.zero32 = d := by
        injection hd
      exact ⟨hd2.symm, by rw [hd2] at hz; exact hz⟩
    · rw [hrun, if_neg hz]
      exact ⟨fun hcontra => absurd hcontra (by simp), fun hcontra => absurd hcontra hz⟩

/-- Witness for claim C7, at the concrete hash `hash1`. -/
theorem native_guard_witness :
    benchmarks.native_run benchmarks.hash1 = some benchmarks.one32
    ∧ (benchmarks.one32 = benchmarks.hash1^[100] benchmarks.zero32
        ∧ benchmarks.one32 ≠ benchmarks.zero32) := by
  have hsome : benchmarks.native_run benchmarks.hash1 = some benchmarks.one32 := by decide
  exact ⟨hsome, (native_guard benchmarks.hash1).1 benchmarks.one32 hsome⟩

end Nitro
